import Mathlib

/-!
Shallow embedding of the routing / dependency-injection runtime of the
upload-server repository (`src/services/backend/src`), covering:

* `decorators/di.py` — the `DIContainer` class (`register`, `get`);
* `mixins/http.py` — `RouterMixin._route_to_regex`, `_match_route`,
  `handle_request`, and `JsonResponseMixin.send_json_error`;
* `mixins/pagination.py` — `PaginationMixin.parse_pagination`;
* `controllers/main.py` — `CompositeController.register_controller`,
  `_aggregate_routes`, `_merge_routes`;
* `decorators/routing.py` — `register_routes`.

Python dictionaries are modelled as association lists with
insert-or-overwrite semantics (unique keys, insertion order preserved),
which matches `dict` observably.  Object identity is modelled by an
allocation counter: each factory invocation yields a fresh `Nat` id, and
the container state records a log of invoked factories so that "the
factory was (not) invoked" is expressible.
-/

set_option autoImplicit false

namespace UploadServer

/-- First-match association-list lookup; the model of `d[k]` / `k in d`
for a Python `dict` (keys are unique in a real `dict`, so first-match
agrees with it). -/
def lookupKey {β : Type} : List (String × β) → String → Option β
  | [], _ => none
  | (k, v) :: rest, key => if k = key then some v else lookupKey rest key

/-- Insert-or-overwrite, the model of `d[k] = v` on a Python `dict`:
an existing key keeps its position and gets the new value, a new key is
appended. -/
def dictInsert {β : Type} : List (String × β) → String → β → List (String × β)
  | [], key, v => [(key, v)]
  | (k, w) :: rest, key, v =>
      if k = key then (k, v) :: rest else (k, w) :: dictInsert rest key v

@[simp] theorem lookupKey_nil {β : Type} (k : String) :
    lookupKey ([] : List (String × β)) k = none := rfl

@[simp] theorem lookupKey_cons {β : Type} (k key : String) (v : β)
    (rest : List (String × β)) :
    lookupKey ((k, v) :: rest) key =
      if k = key then some v else lookupKey rest key := rfl

@[simp] theorem dictInsert_nil {β : Type} (k : String) (v : β) :
    dictInsert ([] : List (String × β)) k v = [(k, v)] := rfl

/-! ## `decorators/di.py` — `DIContainer` -/

/-- Error raised by `DIContainer.get` when the name is unknown
(`raise ValueError(f"Service '{name}' is not registered")` in the code,
`UnregisteredServiceError` in the specification's vocabulary). -/
inductive DIError : Type
  | unregisteredService : DIError
deriving DecidableEq, Repr

/-- State of a `DIContainer`.  Factories and service types are opaque
`Nat` ids.  `nextInstance` is the allocation counter modelling Python
object identity; `invocations` logs every factory call made by `get`. -/
structure DIContainer : Type where
  services : List (String × Nat)
  singletons : List (String × Nat)
  singletonFlags : List (String × Bool)
  serviceTypes : List (String × Nat)
  nextInstance : Nat
  invocations : List Nat
deriving DecidableEq, Repr

/-- The freshly constructed container (`DIContainer.__init__`). -/
def DIContainer.empty : DIContainer :=
  ⟨[], [], [], [], 0, []⟩

/-- `DIContainer.register(name, factory, singleton=True, service_type=None)`:
stores the factory and the singleton flag; stores the service type only
when one is given (`if service_type:`).  Note that it does NOT touch
`self._singletons`. -/
def DIContainer.register (s : DIContainer) (name : String) (factory : Nat)
    (singleton : Bool) (serviceType : Option Nat) : DIContainer :=
  { s with
    services := dictInsert s.services name factory
    singletonFlags := dictInsert s.singletonFlags name singleton
    serviceTypes :=
      match serviceType with
      | some t => dictInsert s.serviceTypes name t
      | none => s.serviceTypes }

/-- `DIContainer.get(name)`, returning the result (or error) together
with the post-state.  Mirrors the code line by line:

* unknown name → `ValueError` (state untouched);
* singleton flag (default `True`) set and a cached instance present →
  return the cache, invoke nothing;
* otherwise invoke the factory (allocating a fresh instance id and
  logging the invocation) and cache the instance when the flag is set. -/
def DIContainer.get (s : DIContainer) (name : String) :
    Except DIError Nat × DIContainer :=
  match lookupKey s.services name with
  | none => (Except.error DIError.unregisteredService, s)
  | some factory =>
    let flag := (lookupKey s.singletonFlags name).getD true
    match flag, lookupKey s.singletons name with
    | true, some inst => (Except.ok inst, s)
    | _, _ =>
      let inst := s.nextInstance
      let s' := { s with
        nextInstance := s.nextInstance + 1
        invocations := s.invocations ++ [factory] }
      if flag then
        (Except.ok inst, { s' with singletons := dictInsert s'.singletons name inst })
      else
        (Except.ok inst, s')

/-- `DIContainer.is_registered(name)`. -/
def DIContainer.isRegistered (s : DIContainer) (name : String) : Bool :=
  (lookupKey s.services name).isSome

/-! ## `mixins/http.py` — `RouterMixin`

`_route_to_regex` turns a route string into the anchored regex obtained
by replacing every `<name>` occurrence (`<([^>]+)>`, so the bracketed
text is nonempty) with `([^/]+)`.  We embed the resulting regex as an
alternating list of literal chunks and parameter slots (`Part`), and
`matchPartsF` implements the backtracking greedy semantics of the regex
`^lit1([^/]+)lit2([^/]+)...$`: each slot matches one or more non-`/`
characters, longest first.  Literal chunks are matched as exact text;
this is faithful for every pattern free of regex metacharacters (all
patterns in the repository are). -/

/-- One piece of a compiled route: a literal chunk or a `<name>` slot. -/
inductive Part : Type
  | lit (s : List Char) : Part
  | param (name : List Char) : Part
deriving DecidableEq, Repr

/-- Prepend the (reversed) literal accumulator as a literal part, unless
it is empty. -/
def flushAcc (acc : List Char) (parts : List Part) : List Part :=
  if acc = [] then parts else Part.lit acc.reverse :: parts

/-- Scanner producing the compiled parts of a route string, mirroring
`_route_to_regex`: each `<name>` with nonempty, `>`-free `name` becomes
a parameter slot; `<>` and an unclosed `<` remain literal text.  `fuel`
only bounds recursion; `routeParts` supplies enough for it never to run
out. -/
def scanPartsF : Nat → List Char → List Char → List Part
  | 0, acc, cs => flushAcc (cs.reverse ++ acc) []
  | _ + 1, acc, [] => flushAcc acc []
  | f + 1, acc, '<' :: rest =>
      let name := rest.takeWhile (· ≠ '>')
      let after := rest.dropWhile (· ≠ '>')
      match after with
      | [] => flushAcc (rest.reverse ++ '<' :: acc) []
      | _ :: afterClose =>
          if name = [] then
            scanPartsF f ('>' :: '<' :: acc) afterClose
          else
            flushAcc acc (Part.param name :: scanPartsF f [] afterClose)
  | f + 1, acc, c :: rest => scanPartsF f (c :: acc) rest

/-- Compiled parts of a route pattern (the shape of the regex built by
`_route_to_regex`). -/
def routeParts (route : String) : List Part :=
  scanPartsF (route.toList.length + 1) [] route.toList

/-- The parameter names of a compiled route, in occurrence order
(`param_names` in `_route_to_regex`). -/
def partsNames : List Part → List (List Char)
  | [] => []
  | Part.param n :: ps => n :: partsNames ps
  | Part.lit _ :: ps => partsNames ps

/-- `[n, n-1, ..., 1]`: the candidate lengths for a `([^/]+)` slot,
longest first (regex greediness). -/
def decList : Nat → List Nat
  | 0 => []
  | n + 1 => (n + 1) :: decList n

/-- Length of the leading run of non-`/` characters: the longest text a
`([^/]+)` slot could consume here. -/
def countNonSlash (cs : List Char) : Nat :=
  (cs.takeWhile (· ≠ '/')).length

/-- Backtracking matcher for the anchored regex denoted by a part list:
literal chunks match exactly, each parameter slot matches one or more
non-`/` characters (greedy, longest first, with backtracking), and the
whole input must be consumed (`^...$`).  Returns the captured group
texts in order.  `fuel` only bounds recursion; `matchParts` supplies
enough for it never to run out. -/
def matchPartsF : Nat → List Part → List Char → Option (List (List Char))
  | 0, _, _ => none
  | _ + 1, [], cs => if cs = [] then some [] else none
  | f + 1, Part.lit s :: ps, cs =>
      if s.isPrefixOf cs then matchPartsF f ps (cs.drop s.length) else none
  | f + 1, Part.param _ :: ps, cs =>
      (decList (countNonSlash cs)).findSome? (fun k =>
        (matchPartsF f ps (cs.drop k)).map (fun caps => cs.take k :: caps))

/-- `regex_pattern.match(path)` for a compiled route: every recursive
call of `matchPartsF` consumes one part, so `ps.length + 1` fuel always
suffices. -/
def matchParts (ps : List Part) (cs : List Char) : Option (List (List Char)) :=
  matchPartsF (ps.length + 1) ps cs

/-- `'<' in route_pattern`: the test `_match_route` uses to decide which
patterns take part in the parameterized phase and which in the
startswith fallback. -/
def hasParamChar (pat : String) : Bool :=
  pat.toList.contains '<'

/-- `params[param_name] = match.group(i + 1)` over `enumerate(param_names)`:
build the params dict from the names and the captured texts. -/
def mkParams (names caps : List (List Char)) : List (String × String) :=
  (List.zip names caps).foldl
    (fun d p => dictInsert d p.1.asString p.2.asString) []

/-- The second tier of `_match_route`: scan the table in order and
return the first pattern containing `<` whose compiled regex matches the
path, together with its extracted params. -/
def paramPhase (path : String) (routes : List (String × String)) :
    Option (String × List (String × String)) :=
  routes.findSome? (fun pr =>
    if hasParamChar pr.1 then
      (matchParts (routeParts pr.1) path.toList).map (fun caps =>
        (pr.2, mkParams (partsNames (routeParts pr.1)) caps))
    else none)

/-- The third tier of `_match_route`: scan the table in order and return
the first `<`-free pattern that the path starts with
(`path.startswith(route_prefix)`, i.e. the pattern's characters are a
prefix of the path's). -/
def fallbackPhase (path : String) (routes : List (String × String)) :
    Option String :=
  routes.findSome? (fun pr =>
    if !hasParamChar pr.1 && pr.1.toList.isPrefixOf path.toList then
      some pr.2
    else none)

/-- `RouterMixin._match_route(path, routes)`: exact dict-key equality
first (`if path in routes`, with empty params), then the parameterized
phase, then the startswith fallback, else `(None, {})`. -/
def matchRoute (path : String) (routes : List (String × String)) :
    Option String × List (String × String) :=
  match lookupKey routes path with
  | some h => (some h, [])
  | none =>
    match paramPhase path routes with
    | some (h, ps) => (some h, ps)
    | none =>
      match fallbackPhase path routes with
      | some h => (some h, [])
      | none => (none, [])

/-! ## `RouterMixin.handle_request` and `JsonResponseMixin.send_json_error` -/

/-- Observable actions of one `handle_request` dispatch: a JSON error
written to the client (`send_json_error`, status code plus serialized
body) or the invocation of a handler method. -/
inductive Effect : Type
  | jsonError (code : Nat) (body : String) : Effect
  | invokeHandler (name : String) : Effect
deriving DecidableEq, Repr

/-- The body `send_json_error` writes: `json.dumps({"detail": message})`
(for messages needing no JSON escaping, as all messages here are). -/
def jsonDetail (message : String) : String :=
  "\x7b\"detail\": \"" ++ message ++ "\"\x7d"

/-- `base_path.split('?', 1)[0]` guarded by `if '?' in base_path`:
everything before the first `?`. -/
def stripQuery (p : String) : String :=
  (p.toList.takeWhile (· ≠ '?')).asString

/-- `RouterMixin.handle_request(routes)`.

* `pathAttr` models `self.path` (`None` → 500 "Path not available");
* `truthyAttr h` models `getattr(self, h, None)` yielding a truthy
  value (a bound method is truthy; a missing attribute gives `None`);
* the returned pair is the list of effects (in order) and the value
  assigned to `self.route_params` (`oldParams` when the assignment is
  never reached).

Mirrors the code: strip the query string, `_match_route`, assign
`route_params`, then `if not handler_name` (falsy: `None` or the empty
string) → 404 "Not Found"; `if not handler` → 500
"Handler not implemented."; otherwise invoke the handler. -/
def handleRequest (pathAttr : Option String) (routes : List (String × String))
    (truthyAttr : String → Bool) (oldParams : List (String × String)) :
    List Effect × List (String × String) :=
  match pathAttr with
  | none => ([Effect.jsonError 500 (jsonDetail "Path not available")], oldParams)
  | some p =>
    let base := stripQuery p
    let m := matchRoute base routes
    match m.1 with
    | none => ([Effect.jsonError 404 (jsonDetail "Not Found")], m.2)
    | some h =>
      if h = "" then
        ([Effect.jsonError 404 (jsonDetail "Not Found")], m.2)
      else if truthyAttr h then
        ([Effect.invokeHandler h], m.2)
      else
        ([Effect.jsonError 500 (jsonDetail "Handler not implemented.")], m.2)

/-! ## `mixins/pagination.py` — `PaginationMixin.parse_pagination` -/

/-- `dto/pagination.py` — `PaginationDTO`. -/
structure PaginationDTO : Type where
  page : Int
  perPage : Int
deriving DecidableEq, Repr

/-- `PaginationDTO.to_limit_offset`: `(per_page, (page - 1) * per_page)`. -/
def PaginationDTO.toLimitOffset (d : PaginationDTO) : Int × Int :=
  (d.perPage, (d.page - 1) * d.perPage)

/-- `interfaces/pagination.py` — the two pagination errors (subclasses
of `PaginationError(Exception)`, hence not caught by the
`except ValueError` clauses in `parse_pagination`). -/
inductive PaginationError : Type
  | invalidPageNumber (value : String) : PaginationError
  | invalidPerPage (value : String) : PaginationError
deriving DecidableEq, Repr

/-- All-decimal-digit contents of a nonempty digit string, else `none`. -/
def digitsVal? (cs : List Char) : Option Nat :=
  if cs ≠ [] ∧ ∀ c ∈ cs, c.isDigit then
    some (cs.foldl (fun n c => n * 10 + (c.toNat - '0'.toNat)) 0)
  else none

/-- Model of Python `int(s)` on the strings relevant here: an optional
sign followed by one or more decimal digits.  (Python additionally
strips whitespace and allows underscore separators and non-ASCII
digits; those forms do not occur in this subsystem and are modelled as
failures.) -/
def pyInt? (s : String) : Option Int :=
  match s.toList with
  | '-' :: ds => (digitsVal? ds).map (fun n => -(n : Int))
  | '+' :: ds => (digitsVal? ds).map (fun n => (n : Int))
  | ds => (digitsVal? ds).map (fun n => (n : Int))

/-- `PaginationMixin.parse_pagination(query_params, default_page,
default_per_page, max_per_page)`.  `page` first: parse failure or a
non-positive value raises `InvalidPageNumberError`; then `per_page`
likewise with `InvalidPerPageError`; a valid `per_page` above
`max_per_page` is silently clamped to `max_per_page`. -/
def parsePagination (queryParams : List (String × String))
    (defaultPage : Int := 1) (defaultPerPage : Int := 10)
    (maxPerPage : Option Int := none) :
    Except PaginationError PaginationDTO :=
  let pageStr := (lookupKey queryParams "page").getD (toString defaultPage)
  match pyInt? pageStr with
  | none => Except.error (PaginationError.invalidPageNumber pageStr)
  | some page =>
    if page ≤ 0 then Except.error (PaginationError.invalidPageNumber pageStr)
    else
      let perPageStr :=
        (lookupKey queryParams "per_page").getD (toString defaultPerPage)
      match pyInt? perPageStr with
      | none => Except.error (PaginationError.invalidPerPage perPageStr)
      | some perPage =>
        if perPage ≤ 0 then
          Except.error (PaginationError.invalidPerPage perPageStr)
        else
          match maxPerPage with
          | some m =>
            if perPage > m then Except.ok ⟨page, m⟩
            else Except.ok ⟨page, perPage⟩
          | none => Except.ok ⟨page, perPage⟩

/-! ## `controllers/main.py` — `CompositeController` -/

/-- A controller class as `CompositeController` sees it: its `__name__`
and the four route tables found in its own `__dict__`
(`controller_class.__dict__.get('routes_get', {})`, etc.). -/
structure Controller : Type where
  name : String
  routesGet : List (String × String)
  routesPost : List (String × String)
  routesDelete : List (String × String)
  routesPut : List (String × String)
deriving DecidableEq, Repr

/-- `f"{controller_class.__name__}_{handler_name}"`: the qualified
composite handler name. -/
def qualify (c : Controller) (handler : String) : String :=
  c.name ++ "_" ++ handler

/-- `CompositeController._merge_routes` restricted to its effect on the
target route table: append each of the controller's entries under its
qualified name unless the pattern is already taken (`if path in
target_routes: continue`). -/
def mergeTable (target : List (String × String)) (c : Controller)
    (ctrlRoutes : List (String × String)) : List (String × String) :=
  ctrlRoutes.foldl
    (fun t pr =>
      match lookupKey t pr.1 with
      | some _ => t
      | none => t ++ [(pr.1, qualify c pr.2)])
    target

/-- One method's aggregate table after `_aggregate_routes`: the tables
start empty (`clear()`) and each registered controller's table is merged
in registration order.  (`_merge_routes` also records the qualified name
in `_handler_to_controller`; that map does not influence the tables, so
it is modelled separately by `handlerToController`.) -/
def aggTable (sel : Controller → List (String × String))
    (ctrls : List Controller) : List (String × String) :=
  ctrls.foldl (fun t c => mergeTable t c (sel c)) []

/-- `aggTable` starting from an arbitrary partial table (the state of
the fold part-way through `_aggregate_routes`). -/
def aggTableFrom (sel : Controller → List (String × String))
    (acc : List (String × String)) (ctrls : List Controller) :
    List (String × String) :=
  ctrls.foldl (fun t c => mergeTable t c (sel c)) acc

/-- The `_handler_to_controller` entries produced by merging one
controller's table. -/
def mergeH2C (target : List (String × String))
    (h2c : List (String × String)) (c : Controller)
    (ctrlRoutes : List (String × String)) : List (String × String) :=
  (ctrlRoutes.foldl
    (fun (st : List (String × String) × List (String × String)) pr =>
      match lookupKey st.1 pr.1 with
      | some _ => st
      | none =>
        (st.1 ++ [(pr.1, qualify c pr.2)],
         dictInsert st.2 (qualify c pr.2) c.name))
    (target, h2c)).2

/-- `CompositeController.register_controller`: append the controller to
the registration list unless already present (`if controller_class not
in cls._registered_controllers`). -/
def registerController (registered : List Controller) (c : Controller) :
    List Controller :=
  if c ∈ registered then registered else registered ++ [c]

/-! ## `decorators/routing.py` — `register_routes`

Route dictionaries are mutable heap objects shared by reference, so the
heap is modelled explicitly: `Heap` maps a dict id to its contents.  A
class holds in its own `__dict__` a partial map from the four route
attribute names to dict ids (`own`), while `inherited` is what attribute
lookup finds further along the MRO (for a `RouterMixin` subclass, the
mixin's four class-level dictionaries).  `tagged` lists the
`@route`-decorated methods visible through `dir(cls)` in scan order:
`(_route_method, _route_path, method name)`. -/

/-- Heap of route dictionaries: dict id → contents. -/
def Heap : Type := List (Nat × List (String × String))

/-- Contents of a heap dict (missing ids read as empty). -/
def heapAt (h : Heap) (r : Nat) : List (String × String) :=
  (List.lookup r h).getD []

/-- Update one heap dict in place. -/
def heapSet (h : Heap) (r : Nat) (d : List (String × String)) : Heap :=
  match h with
  | [] => [(r, d)]
  | (r', d') :: rest =>
      if r' = r then (r, d) :: rest else (r', d') :: heapSet rest r d

/-- A Python class as `register_routes` sees it. -/
structure PyClass : Type where
  own : List (String × Nat)
  inherited : List (String × Nat)
  tagged : List (String × String × String)
deriving DecidableEq, Repr

/-- `hasattr(cls, a)` / `getattr(cls, a)` for the route attributes: own
`__dict__` first, then the MRO. -/
def lookupAttr (c : PyClass) (a : String) : Option Nat :=
  match lookupKey c.own a with
  | some r => some r
  | none => lookupKey c.inherited a

/-- The `route_attrs` dict of `register_routes`. -/
def routeAttrs : List (String × String) :=
  [("GET", "routes_get"), ("POST", "routes_post"),
   ("DELETE", "routes_delete"), ("PUT", "routes_put")]

/-- Phase 1 of `register_routes`: for each of the four attribute names,
`if not hasattr(cls, attr_name): setattr(cls, attr_name, {})` — a fresh
empty dict is created in the class's own `__dict__` only when neither
the class nor any base defines the attribute. -/
def ensureAttrs (st : Heap × Nat × PyClass) : Heap × Nat × PyClass :=
  routeAttrs.foldl
    (fun (st : Heap × Nat × PyClass) ma =>
      match lookupAttr st.2.2 ma.2 with
      | some _ => st
      | none =>
        (heapSet st.1 st.2.1 [],
         st.2.1 + 1,
         { st.2.2 with own := dictInsert st.2.2.own ma.2 st.2.1 }))
    st

/-- Phase 2 of `register_routes`: for each tagged method, look up
`route_attrs.get(http_method)` (unknown methods are skipped), fetch the
route dict via attribute lookup and mutate it with
`routes_dict[path] = method_name`.  (After phase 1 the attribute lookup
always succeeds; the `none` branch is dead code kept for totality.) -/
def addTagged (st : Heap × Nat × PyClass) : Heap × Nat × PyClass :=
  st.2.2.tagged.foldl
    (fun (st : Heap × Nat × PyClass) t =>
      match lookupKey routeAttrs t.1 with
      | none => st
      | some attrName =>
        match lookupAttr st.2.2 attrName with
        | none => st
        | some r =>
          (heapSet st.1 r (dictInsert (heapAt st.1 r) t.2.1 t.2.2),
           st.2.1, st.2.2))
    st

/-- `register_routes(cls)` acting on the heap, the allocation counter
and the class. -/
def registerRoutes (h : Heap) (next : Nat) (cls : PyClass) :
    Heap × Nat × PyClass :=
  addTagged (ensureAttrs (h, next, cls))

/-! ## Helper lemmas -/

theorem lookupKey_dictInsert_self {β : Type} (d : List (String × β))
    (k : String) (v : β) : lookupKey (dictInsert d k v) k = some v := by
  induction d with
  | nil => simp [dictInsert, lookupKey]
  | cons p rest ih =>
    by_cases h : p.1 = k
    · simp [dictInsert, lookupKey, h]
    · simp [dictInsert, lookupKey, h, ih]

theorem lookupKey_dictInsert_ne {β : Type} (d : List (String × β))
    (k k' : String) (v : β) (h : k ≠ k') :
    lookupKey (dictInsert d k v) k' = lookupKey d k' := by
  induction d with
  | nil => simp [dictInsert, lookupKey, h]
  | cons p rest ih =>
    by_cases hp : p.1 = k
    · simp [dictInsert, lookupKey, hp, h]
    · simp [dictInsert, lookupKey, hp, ih]

theorem lookupKey_append_of_some {β : Type} {l : List (String × β)}
    {p : String} {v : β} (l' : List (String × β))
    (h : lookupKey l p = some v) : lookupKey (l ++ l') p = some v := by
  induction l with
  | nil => simp [lookupKey] at h
  | cons q rest ih =>
    by_cases hq : q.1 = p
    · simpa [lookupKey, hq] using h
    · simp [lookupKey, hq] at h ⊢
      exact ih h

theorem lookupKey_append_of_none {β : Type} {l : List (String × β)}
    {p : String} (l' : List (String × β))
    (h : lookupKey l p = none) : lookupKey (l ++ l') p = lookupKey l' p := by
  induction l with
  | nil => simp
  | cons q rest ih =>
    by_cases hq : q.1 = p
    · simp [lookupKey, hq] at h
    · simp [lookupKey, hq] at h ⊢
      exact ih h

theorem lookup_heapSet_self (h : Heap) (r : Nat)
    (d : List (String × String)) : List.lookup r (heapSet h r d) = some d := by
  induction h with
  | nil => simp [heapSet, List.lookup]
  | cons p rest ih =>
    by_cases hp : p.1 = r
    · simp [heapSet, hp, List.lookup]
    · have hp' : (r == p.1) = false := by
        simp [Ne.symm hp]
      simp [heapSet, hp, List.lookup, hp']
      exact ih

theorem heapAt_heapSet_self (h : Heap) (r : Nat)
    (d : List (String × String)) : heapAt (heapSet h r d) r = d := by
  simp [heapAt, lookup_heapSet_self]

theorem mem_decList (n k : Nat) : k ∈ decList n ↔ 1 ≤ k ∧ k ≤ n := by
  induction n with
  | zero => simp [decList]; omega
  | succ m ih =>
    simp [decList, ih]
    omega

/-! ## Theorems about `DIContainer` -/

/-- C8.  `get` with an unregistered name fails with the
"is not registered" error (the spec's `UnregisteredServiceError`),
invokes no factory and leaves the container state — registrations,
singleton cache and invocation log alike — exactly unchanged. -/
theorem unregistered_resolve_fails_cleanly (s : DIContainer) (n : String)
    (h : lookupKey s.services n = none) :
    s.get n = (Except.error DIError.unregisteredService, s) := by
  simp [DIContainer.get, h]

/-- C8 witness. -/
theorem unregistered_resolve_fails_cleanly_witness :
    DIContainer.empty.get "unregistered" =
      (Except.error DIError.unregisteredService, DIContainer.empty) :=
  unregistered_resolve_fails_cleanly DIContainer.empty "unregistered" rfl

/-- C5.  For a registered name `n` with factory `f`: if the singleton
flag is set, two successive `get n` calls return the identity-equal
instance and together invoke the factory at most once (none at all when
an instance is already cached); if the flag is cleared (transient),
each of two successive `get n` calls invokes the factory once and the
two returned instances are distinct. -/
theorem singleton_and_transient_resolution (s : DIContainer) (n : String)
    (f : Nat) (hreg : lookupKey s.services n = some f) :
    ((lookupKey s.singletonFlags n).getD true = true →
      ∃ i s1, s.get n = (Except.ok i, s1) ∧ s1.get n = (Except.ok i, s1) ∧
        s1.invocations.length ≤ s.invocations.length + 1) ∧
    ((lookupKey s.singletonFlags n).getD true = false →
      ∃ i1 s1 i2 s2, s.get n = (Except.ok i1, s1) ∧
        s1.get n = (Except.ok i2, s2) ∧ i1 ≠ i2 ∧
        s1.invocations = s.invocations ++ [f] ∧
        s2.invocations = s1.invocations ++ [f]) := by
  constructor
  · intro hflag
    cases hcache : lookupKey s.singletons n with
    | some i =>
      refine ⟨i, s, ?_, ?_, Nat.le_succ _⟩ <;>
        simp [DIContainer.get, hreg, hflag, hcache]
    | none =>
      refine ⟨s.nextInstance,
        { s with nextInstance := s.nextInstance + 1,
                 invocations := s.invocations ++ [f],
                 singletons := dictInsert s.singletons n s.nextInstance },
        ?_, ?_, ?_⟩
      · simp [DIContainer.get, hreg, hflag, hcache]
      · simp [DIContainer.get, hreg, hflag, lookupKey_dictInsert_self]
      · simp
  · intro hflag
    cases hcache : lookupKey s.singletons n with
    | some i =>
      refine ⟨s.nextInstance,
        { s with nextInstance := s.nextInstance + 1,
                 invocations := s.invocations ++ [f] },
        s.nextInstance + 1,
        { s with nextInstance := s.nextInstance + 1 + 1,
                 invocations := s.invocations ++ [f] ++ [f] },
        ?_, ?_, by omega, by simp, by simp⟩
      · simp [DIContainer.get, hreg, hflag, hcache]
      · simp [DIContainer.get, hreg, hflag, hcache]
    | none =>
      refine ⟨s.nextInstance,
        { s with nextInstance := s.nextInstance + 1,
                 invocations := s.invocations ++ [f] },
        s.nextInstance + 1,
        { s with nextInstance := s.nextInstance + 1 + 1,
                 invocations := s.invocations ++ [f] ++ [f] },
        ?_, ?_, by omega, by simp, by simp⟩
      · simp [DIContainer.get, hreg, hflag, hcache]
      · simp [DIContainer.get, hreg, hflag, hcache]

/-- C5 witness: a concrete singleton service and a concrete transient
service, resolved twice each. -/
theorem singleton_and_transient_resolution_witness :
    (∃ i s1,
      ((DIContainer.empty.register "svc" 7 true none).get "svc" =
        (Except.ok i, s1)) ∧ s1.get "svc" = (Except.ok i, s1) ∧
        s1.invocations.length ≤
          (DIContainer.empty.register "svc" 7 true none).invocations.length + 1) ∧
    (∃ i1 s1 i2 s2,
      ((DIContainer.empty.register "tr" 9 false none).get "tr" =
        (Except.ok i1, s1)) ∧ s1.get "tr" = (Except.ok i2, s2) ∧ i1 ≠ i2 ∧
        s1.invocations =
          (DIContainer.empty.register "tr" 9 false none).invocations ++ [9] ∧
        s2.invocations = s1.invocations ++ [9]) :=
  ⟨(singleton_and_transient_resolution
      (DIContainer.empty.register "svc" 7 true none) "svc" 7 (by decide)).1
      (by decide),
   (singleton_and_transient_resolution
      (DIContainer.empty.register "tr" 9 false none) "tr" 9 (by decide)).2
      (by decide)⟩

/-- C1 counterexample.  Register `"n"` with factory `0` as a singleton,
resolve once (caching instance `0`, invocation log `[0]`), then
re-register `"n"` with the new factory `1`.  The next `get "n"` returns
the OLD cached instance `0` and the invocation log still reads `[0]`:
the new factory is never invoked, so `register` did NOT invalidate the
previously cached instance. -/
theorem register_does_not_invalidate_counterexample :
    (((DIContainer.empty.register "n" 0 true none).get "n").2.register
        "n" 1 true none).get "n" =
      (Except.ok 0,
       ((DIContainer.empty.register "n" 0 true none).get "n").2.register
         "n" 1 true none) ∧
    ((((DIContainer.empty.register "n" 0 true none).get "n").2.register
        "n" 1 true none).get "n").2.invocations = [0] :=
  ⟨rfl, rfl⟩

/-- C1 as amended.  If `n` has a cached singleton instance `i`, then
after `register n f'` (any new factory, singleton lifetime) the next
`get n` still returns `i` with the container unchanged — in particular
`f'` is not invoked (the invocation log is untouched).  `register`
replaces the factory but does not invalidate the cached instance. -/
theorem register_preserves_cached_singleton (s : DIContainer) (n : String)
    (i fNew : Nat) (hcached : lookupKey s.singletons n = some i) :
    (s.register n fNew true none).get n =
      (Except.ok i, s.register n fNew true none) ∧
    (s.register n fNew true none).invocations = s.invocations := by
  constructor
  · simp [DIContainer.get, DIContainer.register, lookupKey_dictInsert_self,
      hcached]
  · rfl

/-! ## Theorems about `RouterMixin._match_route` -/

theorem length_takeWhile_le {α : Type} (p : α → Bool) (l : List α) :
    (l.takeWhile p).length ≤ l.length := by
  induction l with
  | nil => simp
  | cons a t ih =>
    by_cases h : p a
    · simp [List.takeWhile_cons, h]
      omega
    · simp [List.takeWhile_cons, h]

/-- Every group captured by the compiled-route matcher is nonempty and
free of `/`: each `<name>` slot is the regex `([^/]+)`. -/
theorem matchPartsF_captures (fuel : Nat) :
    ∀ (ps : List Part) (cs : List Char) (caps : List (List Char)),
      matchPartsF fuel ps cs = some caps →
      ∀ c ∈ caps, c ≠ [] ∧ '/' ∉ c := by
  induction fuel with
  | zero =>
    intro ps cs caps h
    simp [matchPartsF] at h
  | succ f ih =>
    intro ps cs caps h
    cases ps with
    | nil =>
      by_cases hcs : cs = []
      · simp [matchPartsF, hcs] at h
        subst h
        simp
      · simp [matchPartsF, hcs] at h
    | cons hd ps' =>
      cases hd with
      | lit s =>
        intro c hc
        simp only [matchPartsF] at h
        by_cases hpre : s.isPrefixOf cs
        · simp [hpre] at h
          exact ih ps' (cs.drop s.length) caps h c hc
        · simp [hpre] at h
      | param nm =>
        intro c hc
        simp only [matchPartsF] at h
        obtain ⟨k, hk, hfk⟩ := List.exists_of_findSome?_eq_some h
        cases hm : matchPartsF f ps' (cs.drop k) with
        | none => simp [hm] at hfk
        | some caps' =>
          simp [hm] at hfk
          subst hfk
          rcases (mem_decList _ k).mp hk with ⟨hk1, hk2⟩
          rcases List.mem_cons.mp hc with hc | hc
          · subst hc
            have hlen : k ≤ cs.length :=
              le_trans hk2 (length_takeWhile_le _ cs)
            constructor
            · intro hnil
              have hlen0 : (cs.take k).length = 0 := by rw [hnil]; rfl
              rw [List.length_take] at hlen0
              omega
            · intro hmem
              have htake : cs.take k = (cs.takeWhile (· ≠ '/')).take k := by
                conv_lhs =>
                  rw [← List.takeWhile_append_dropWhile (p := (· ≠ '/')) (l := cs)]
                rw [List.take_append_of_le_length hk2]
              rw [htake] at hmem
              have hmem' : '/' ∈ cs.takeWhile (· ≠ '/') :=
                List.take_subset _ _ hmem
              have := List.mem_takeWhile_imp hmem'
              simp at this
          · exact ih ps' (cs.drop k) caps' hm c hc

/-- C9.  For the parameterized pattern `/upload/<filename>`:
`match` on `/upload/photo.png` succeeds with params
`{filename: "photo.png"}`; `match` on `/upload/` does not match the
pattern (so yields NotFound against it), yet `/upload/` still matches a
literal `/upload/` entry when one exists; and in general every text
captured by a `<name>` slot is exactly one nonempty, `/`-free path
segment. -/
theorem upload_filename_pattern_matching :
    matchRoute "/upload/photo.png" [("/upload/<filename>", "hf")] =
      (some "hf", [("filename", "photo.png")]) ∧
    matchRoute "/upload/" [("/upload/<filename>", "hf")] = (none, []) ∧
    matchRoute "/upload/" [("/upload/", "hlit"), ("/upload/<filename>", "hf")] =
      (some "hlit", []) ∧
    (∀ (fuel : Nat) (ps : List Part) (cs : List Char) (caps : List (List Char)),
      matchPartsF fuel ps cs = some caps →
      ∀ c ∈ caps, c ≠ [] ∧ '/' ∉ c) :=
  ⟨rfl, rfl, rfl, matchPartsF_captures⟩

/-- C9 witness: the general capture property applied to the concrete
match of `/upload/photo.png` against `/upload/<filename>`. -/
theorem upload_filename_pattern_matching_witness :
    ∀ c ∈ ["photo.png".toList], c ≠ [] ∧ '/' ∉ c :=
  upload_filename_pattern_matching.2.2.2
    (routeParts "/upload/<filename>").length.succ
    (routeParts "/upload/<filename>") "/upload/photo.png".toList
    ["photo.png".toList] rfl

/-- C2 counterexample.  The table registers the parameterless pattern
`/upload/` — which `/upload/photo.png` starts with — ahead of the
parameterized `/upload/<filename>`, which the path unifies with.  The
claim says the prefix pattern's handler `h1` wins; the code returns the
parameterized pattern's handler `h2`, because `_match_route` runs the
parameterized loop before the startswith loop. -/
theorem param_beats_startswith_counterexample :
    matchRoute "/upload/photo.png"
        [("/upload/", "h1"), ("/upload/<filename>", "h2")] =
      (some "h2", [("filename", "photo.png")]) ∧
    hasParamChar "/upload/" = false ∧
    ("/upload/".toList.isPrefixOf "/upload/photo.png".toList) = true ∧
    (some "h2" : Option String) ≠ some "h1" :=
  ⟨rfl, rfl, rfl, by decide⟩

/-- C2 as amended.  Parameterized patterns are matched after the exact
literal tier but BEFORE the parameterless startswith fallback: whenever
the exact tier fails and some parameterized pattern matches, the match
resolves to the parameterized phase's result, even when the table also
contains a parameterless pattern the path starts with. -/
theorem param_phase_precedes_startswith_fallback
    (path : String) (routes : List (String × String))
    (h q qh : String) (ps : List (String × String))
    (hexact : lookupKey routes path = none)
    (_hq : (q, qh) ∈ routes) (_hqlit : hasParamChar q = false)
    (_hqpre : q.toList.isPrefixOf path.toList = true)
    (hparam : paramPhase path routes = some (h, ps)) :
    matchRoute path routes = (some h, ps) := by
  simp [matchRoute, hexact, hparam]

/-- C2 witness. -/
theorem param_phase_precedes_startswith_fallback_witness :
    matchRoute "/upload/photo.png"
        [("/upload/", "h1"), ("/upload/<filename>", "h2")] =
      (some "h2", [("filename", "photo.png")]) :=
  param_phase_precedes_startswith_fallback
    "/upload/photo.png" [("/upload/", "h1"), ("/upload/<filename>", "h2")]
    "h2" "/upload/" "h1" [("filename", "photo.png")]
    rfl (by decide) rfl rfl rfl

/-- C3 counterexample.  The first tier of `_match_route` is NOT
restricted to parameterless patterns: a path that is literally equal to
the parameterized pattern string `/upload/<filename>` takes the
immediate exact-equality return (empty params), even though the
parameterized phase would have matched it with params
`{filename: "<filename>"}`. -/
theorem exact_tier_param_pattern_counterexample :
    matchRoute "/upload/<filename>" [("/upload/<filename>", "h")] =
      (some "h", []) ∧
    hasParamChar "/upload/<filename>" = true ∧
    paramPhase "/upload/<filename>" [("/upload/<filename>", "h")] =
      some ("h", [("filename", "<filename>")]) :=
  ⟨rfl, rfl, rfl⟩

/-- C3 as amended.  The first tier of `match` is exact string equality
against ALL registered patterns, parameterized or not: any path equal
to a registered pattern string returns that pattern's handler
immediately with empty params.  (For parameterless literals this is
exactly the claimed behavior.) -/
theorem exact_tier_matches_any_registered_pattern
    (routes : List (String × String)) (p h : String)
    (hlook : lookupKey routes p = some h) :
    matchRoute p routes = (some h, []) := by
  simp [matchRoute, hlook]

/-- C3 witness. -/
theorem exact_tier_matches_any_registered_pattern_witness :
    matchRoute "/upload/" [("/upload/", "list_uploads")] =
      (some "list_uploads", []) :=
  exact_tier_matches_any_registered_pattern
    [("/upload/", "list_uploads")] "/upload/" "list_uploads" rfl

/-! ## Theorems about `RouterMixin.handle_request` -/

/-- C7 counterexample.  A route table can map a pattern to the empty
handler name; `getattr(self, '', None)` is `None`, so the handler is
absent on the controller — the claim then demands a 500
"Handler not implemented." response, but `handle_request` checks
`if not handler_name` (falsiness) before the `getattr`, so the empty
name takes the 404 "Not Found" branch although the pattern matched. -/
theorem empty_handler_name_counterexample :
    handleRequest (some "/x") [("/x", "")] (fun _ => false) [] =
      ([Effect.jsonError 404 (jsonDetail "Not Found")], []) ∧
    (matchRoute (stripQuery "/x") [("/x", "")]).1 = some "" ∧
    Effect.jsonError 404 (jsonDetail "Not Found") ≠
      Effect.jsonError 500 (jsonDetail "Handler not implemented.") :=
  ⟨rfl, rfl, by decide⟩

/-- C7 as amended.  For every dispatch: when the query-stripped path
matches no registered pattern, `handle_request` writes exactly one
effect, an HTTP 404 with body `{"detail": "Not Found"}` — in particular
no handler is invoked; when a pattern matches with a NONEMPTY handler
name whose attribute is absent (or falsy) on the controller instance,
it writes an HTTP 500 with body `{"detail": "Handler not implemented."}`.
(A matched but empty handler name takes the 404 branch instead — the
correction the counterexample forces.) -/
theorem dispatch_error_responses (p : String)
    (routes : List (String × String)) (truthy : String → Bool)
    (old : List (String × String)) :
    ((matchRoute (stripQuery p) routes).1 = none →
      handleRequest (some p) routes truthy old =
        ([Effect.jsonError 404 (jsonDetail "Not Found")],
         (matchRoute (stripQuery p) routes).2)) ∧
    (∀ hname, (matchRoute (stripQuery p) routes).1 = some hname →
      hname ≠ "" → truthy hname = false →
      handleRequest (some p) routes truthy old =
        ([Effect.jsonError 500 (jsonDetail "Handler not implemented.")],
         (matchRoute (stripQuery p) routes).2)) := by
  constructor
  · intro hnone
    simp [handleRequest, hnone]
  · intro hname hsome hne htruthy
    simp [handleRequest, hsome, hne, htruthy]

/-- C7 witness: a dispatch that matches nothing (404) and a dispatch
whose matched handler is not implemented (500). -/
theorem dispatch_error_responses_witness :
    handleRequest (some "/nope") [("/x", "hx")] (fun _ => true) [] =
      ([Effect.jsonError 404 (jsonDetail "Not Found")],
       (matchRoute (stripQuery "/nope") [("/x", "hx")]).2) ∧
    handleRequest (some "/x") [("/x", "hx")] (fun _ => false) [] =
      ([Effect.jsonError 500 (jsonDetail "Handler not implemented.")],
       (matchRoute (stripQuery "/x") [("/x", "hx")]).2) :=
  ⟨(dispatch_error_responses "/nope" [("/x", "hx")] (fun _ => true) []).1 rfl,
   (dispatch_error_responses "/x" [("/x", "hx")] (fun _ => false) []).2
     "hx" rfl (by decide) rfl⟩

/-! ## Theorems about `CompositeController` route aggregation -/

theorem mergeTable_nil (t : List (String × String)) (c : Controller) :
    mergeTable t c [] = t := rfl

theorem mergeTable_cons (t : List (String × String)) (c : Controller)
    (r : String × String) (rs : List (String × String)) :
    mergeTable t c (r :: rs) =
      mergeTable
        (match lookupKey t r.1 with
         | some _ => t
         | none => t ++ [(r.1, qualify c r.2)]) c rs := rfl

/-- A pattern already present in the target keeps its handler through a
merge (`if path in target_routes: continue`). -/
theorem lookupKey_mergeTable_of_some {t : List (String × String)}
    {p v : String} (c : Controller) (rts : List (String × String))
    (h : lookupKey t p = some v) :
    lookupKey (mergeTable t c rts) p = some v := by
  induction rts generalizing t with
  | nil => simpa [mergeTable_nil] using h
  | cons r rs ih =>
    rw [mergeTable_cons]
    cases hket : lookupKey t r.1 with
    | some w => simpa [hket] using ih h
    | none => simpa [hket] using ih (lookupKey_append_of_some _ h)

/-- A pattern absent from both the target and the merged controller's
table stays absent. -/
theorem lookupKey_mergeTable_of_none {t : List (String × String)}
    {p : String} (c : Controller) {rts : List (String × String)}
    (h1 : lookupKey t p = none) (h2 : lookupKey rts p = none) :
    lookupKey (mergeTable t c rts) p = none := by
  induction rts generalizing t with
  | nil => simpa [mergeTable_nil] using h1
  | cons r rs ih =>
    have hr : r.1 ≠ p := by
      intro he
      simp [lookupKey, he] at h2
    have h2' : lookupKey rs p = none := by
      simpa [lookupKey, hr] using h2
    rw [mergeTable_cons]
    cases hket : lookupKey t r.1 with
    | some w => simpa [hket] using ih h1 h2'
    | none =>
      have h1' : lookupKey (t ++ [(r.1, qualify c r.2)]) p = none := by
        rw [lookupKey_append_of_none _ h1]
        simp [lookupKey, hr]
      simpa [hket] using ih h1' h2'

/-- Merging a controller whose table has the (so far unclaimed) pattern
`p` installs that controller's qualified handler for `p`. -/
theorem lookupKey_mergeTable_hit {t : List (String × String)}
    {p hdl : String} (c : Controller) {rts : List (String × String)}
    (h1 : lookupKey t p = none) (h2 : lookupKey rts p = some hdl) :
    lookupKey (mergeTable t c rts) p = some (qualify c hdl) := by
  induction rts generalizing t with
  | nil => simp [lookupKey] at h2
  | cons r rs ih =>
    rw [mergeTable_cons]
    by_cases hr : r.1 = p
    · have hket : lookupKey t r.1 = none := by rw [hr]; exact h1
      have h2' : r.2 = hdl := by simpa [lookupKey, hr] using h2
      have hnew : lookupKey (t ++ [(r.1, qualify c r.2)]) p =
          some (qualify c r.2) := by
        rw [lookupKey_append_of_none _ h1]
        simp [lookupKey, hr]
      simp only [hket]
      rw [← h2']
      exact lookupKey_mergeTable_of_some c rs hnew
    · have h2' : lookupKey rs p = some hdl := by
        simpa [lookupKey, hr] using h2
      cases hket : lookupKey t r.1 with
      | some w => simpa [hket] using ih h1 h2'
      | none =>
        have h1' : lookupKey (t ++ [(r.1, qualify c r.2)]) p = none := by
          rw [lookupKey_append_of_none _ h1]
          simp [lookupKey, hr]
        simpa [hket] using ih h1' h2'

theorem aggTable_eq_from (sel : Controller → List (String × String))
    (ctrls : List Controller) : aggTable sel ctrls = aggTableFrom sel [] ctrls :=
  rfl

theorem aggTableFrom_nil (sel : Controller → List (String × String))
    (acc : List (String × String)) : aggTableFrom sel acc [] = acc := rfl

theorem aggTableFrom_cons (sel : Controller → List (String × String))
    (acc : List (String × String)) (c : Controller) (cs : List Controller) :
    aggTableFrom sel acc (c :: cs) =
      aggTableFrom sel (mergeTable acc c (sel c)) cs := rfl

/-- An entry of the partial aggregate table survives the merges of all
remaining controllers: once claimed, a pattern's handler never
changes. -/
theorem lookupKey_aggTableFrom_of_some
    (sel : Controller → List (String × String))
    {acc : List (String × String)} {p v : String}
    (ctrls : List Controller) (h : lookupKey acc p = some v) :
    lookupKey (aggTableFrom sel acc ctrls) p = some v := by
  induction ctrls generalizing acc with
  | nil => simpa [aggTableFrom_nil] using h
  | cons c cs ih =>
    rw [aggTableFrom_cons]
    exact ih (lookupKey_mergeTable_of_some c (sel c) h)

/-- C4.  Whenever the registration order lists `c1` (the first
controller claiming pattern `p` in the tables selected by `sel`) before
`c2` (a later claimant), the aggregate table maps `p` to `c1`'s
qualified handler; dispatch on `p` therefore resolves to `c1`'s
handler, and `c2`'s qualified handler for that exact pattern is not
reachable through the table.  Moreover `register_controller` appends a
new controller to the registration list and silently ignores (without
error) a repeated registration. -/
theorem first_registered_controller_wins
    (sel : Controller → List (String × String))
    (pre mid suf reg : List Controller) (c1 c2 : Controller)
    (p h1 h2 : String)
    (hpre : ∀ c ∈ pre, lookupKey (sel c) p = none)
    (hc1 : lookupKey (sel c1) p = some h1)
    (_hc2 : lookupKey (sel c2) p = some h2) :
    lookupKey (aggTable sel (pre ++ c1 :: (mid ++ c2 :: suf))) p =
      some (qualify c1 h1) ∧
    matchRoute p (aggTable sel (pre ++ c1 :: (mid ++ c2 :: suf))) =
      (some (qualify c1 h1), []) ∧
    (qualify c2 h2 ≠ qualify c1 h1 →
      lookupKey (aggTable sel (pre ++ c1 :: (mid ++ c2 :: suf))) p ≠
        some (qualify c2 h2)) ∧
    (c2 ∉ reg → registerController reg c2 = reg ++ [c2]) ∧
    (c2 ∈ reg → registerController reg c2 = reg) := by
  have hmain :
      lookupKey (aggTable sel (pre ++ c1 :: (mid ++ c2 :: suf))) p =
        some (qualify c1 h1) := by
    rw [aggTable_eq_from]
    have hstep : ∀ (pre' : List Controller) (acc : List (String × String)),
        (∀ c ∈ pre', lookupKey (sel c) p = none) →
        lookupKey acc p = none →
        lookupKey (aggTableFrom sel acc (pre' ++ c1 :: (mid ++ c2 :: suf))) p =
          some (qualify c1 h1) := by
      intro pre'
      induction pre' with
      | nil =>
        intro acc _ hacc
        rw [List.nil_append, aggTableFrom_cons]
        exact lookupKey_aggTableFrom_of_some sel _
          (lookupKey_mergeTable_hit c1 hacc hc1)
      | cons c cs ih =>
        intro acc hall hacc
        rw [List.cons_append, aggTableFrom_cons]
        exact ih _ (fun d hd => hall d (List.mem_cons_of_mem c hd))
          (lookupKey_mergeTable_of_none c hacc (hall c (List.mem_cons_self c cs)))
    exact hstep pre [] hpre rfl
  refine ⟨hmain, ?_, ?_, ?_, ?_⟩
  · simp [matchRoute, hmain]
  · intro hne habs
    rw [hmain] at habs
    exact hne (Option.some.inj habs).symm
  · intro hnot
    simp [registerController, hnot]
  · intro hin
    simp [registerController, hin]

/-- C4 witness: two controllers both claiming GET `/upload/`, the
first-registered one winning; plus the two `register_controller`
behaviors on a concrete list. -/
theorem first_registered_controller_wins_witness :
    lookupKey
        (aggTable (fun c => c.routesGet)
          ([] ++ ⟨"First", [("/upload/", "list")], [], [], []⟩ ::
            ([] ++ ⟨"Second", [("/upload/", "list2")], [], [], []⟩ :: [])))
        "/upload/" = some "First_list" ∧
    matchRoute "/upload/"
        (aggTable (fun c => c.routesGet)
          ([] ++ ⟨"First", [("/upload/", "list")], [], [], []⟩ ::
            ([] ++ ⟨"Second", [("/upload/", "list2")], [], [], []⟩ :: []))) =
      (some "First_list", []) ∧
    ("Second_list2" ≠ "First_list" →
      lookupKey
          (aggTable (fun c => c.routesGet)
            ([] ++ ⟨"First", [("/upload/", "list")], [], [], []⟩ ::
              ([] ++ ⟨"Second", [("/upload/", "list2")], [], [], []⟩ :: [])))
          "/upload/" ≠ some "Second_list2") ∧
    ((⟨"Second", [("/upload/", "list2")], [], [], []⟩ : Controller) ∉
        ([] : List Controller) →
      registerController [] ⟨"Second", [("/upload/", "list2")], [], [], []⟩ =
        [] ++ [⟨"Second", [("/upload/", "list2")], [], [], []⟩]) ∧
    ((⟨"Second", [("/upload/", "list2")], [], [], []⟩ : Controller) ∈
        ([] : List Controller) →
      registerController [] ⟨"Second", [("/upload/", "list2")], [], [], []⟩ =
        []) :=
  first_registered_controller_wins (fun c => c.routesGet) [] [] [] []
    ⟨"First", [("/upload/", "list")], [], [], []⟩
    ⟨"Second", [("/upload/", "list2")], [], [], []⟩
    "/upload/" "list" "list2" (by simp) rfl rfl

/-! ## Theorems about `decorators/routing.py` — `register_routes` -/

/-- C10.  For a controller class that inherits the `RouterMixin`
class-level route dictionaries (ids `rg`, `rp`, `rd`, `ru`) without
redefining them, and declares one `@route('GET', p)` handler `hdl`:
`register_routes` leaves the class object unchanged (its own `__dict__`
gains NO route-table entry, so `_aggregate_routes` — which reads only
the own `__dict__` — would see nothing), allocates no fresh dictionary,
and instead writes the route into the SHARED inherited dictionary
`rg`, which every other `RouterMixin` subclass resolves its
`routes_get` attribute to.  A fresh per-class dictionary is created
only when the class has no attribute (own or inherited) of that name:
for a class with empty `own` and `inherited`, all four dictionaries are
freshly allocated into its own `__dict__`. -/
theorem register_routes_shared_dict_mutation
    (H : Heap) (n : Nat) (cls : PyClass) (rg rp rd ru : Nat)
    (p hdl : String)
    (hog : lookupKey cls.own "routes_get" = none)
    (hop : lookupKey cls.own "routes_post" = none)
    (hod : lookupKey cls.own "routes_delete" = none)
    (hou : lookupKey cls.own "routes_put" = none)
    (hig : lookupKey cls.inherited "routes_get" = some rg)
    (hip : lookupKey cls.inherited "routes_post" = some rp)
    (hid : lookupKey cls.inherited "routes_delete" = some rd)
    (hiu : lookupKey cls.inherited "routes_put" = some ru)
    (htag : cls.tagged = [("GET", p, hdl)]) :
    (registerRoutes H n cls).2.2 = cls ∧
    (registerRoutes H n cls).2.1 = n ∧
    (registerRoutes H n cls).1 =
      heapSet H rg (dictInsert (heapAt H rg) p hdl) ∧
    heapAt (registerRoutes H n cls).1 rg = dictInsert (heapAt H rg) p hdl ∧
    lookupKey (registerRoutes H n cls).2.2.own "routes_get" = none ∧
    (∀ (H2 : Heap) (n2 : Nat) (tg : List (String × String × String)),
      (ensureAttrs (H2, n2, ⟨[], [], tg⟩)).2.2.own =
        [("routes_get", n2), ("routes_post", n2 + 1),
         ("routes_delete", n2 + 2), ("routes_put", n2 + 3)]) := by
  have he : ensureAttrs (H, n, cls) = (H, n, cls) := by
    simp [ensureAttrs, routeAttrs, lookupAttr, hog, hop, hod, hou,
      hig, hip, hid, hiu]
  have ha : registerRoutes H n cls =
      (heapSet H rg (dictInsert (heapAt H rg) p hdl), n, cls) := by
    rw [registerRoutes, he]
    simp [addTagged, htag, routeAttrs, lookupKey, lookupAttr, hog, hig]
  refine ⟨?_, ?_, ?_, ?_, ?_, ?_⟩
  · rw [ha]
  · rw [ha]
  · rw [ha]
  · rw [ha]
    exact heapAt_heapSet_self _ _ _
  · rw [ha]
    exact hog
  · intro H2 n2 tg
    simp [ensureAttrs, routeAttrs, lookupAttr, lookupKey, dictInsert]

/-- C10 witness: a concrete `RouterMixin` subclass whose four route
attributes resolve to the mixin's shared dictionaries `0..3`, holding
one tagged GET handler. -/
theorem register_routes_shared_dict_mutation_witness :
    (registerRoutes [(0, []), (1, []), (2, []), (3, [])] 10
        ⟨[], [("routes_get", 0), ("routes_post", 1), ("routes_delete", 2),
              ("routes_put", 3)], [("GET", "/p", "handle_p")]⟩).2.2 =
      ⟨[], [("routes_get", 0), ("routes_post", 1), ("routes_delete", 2),
            ("routes_put", 3)], [("GET", "/p", "handle_p")]⟩ ∧
    heapAt (registerRoutes [(0, []), (1, []), (2, []), (3, [])] 10
        ⟨[], [("routes_get", 0), ("routes_post", 1), ("routes_delete", 2),
              ("routes_put", 3)], [("GET", "/p", "handle_p")]⟩).1 0 =
      dictInsert (heapAt [(0, []), (1, []), (2, []), (3, [])] 0)
        "/p" "handle_p" :=
  ⟨(register_routes_shared_dict_mutation
      [(0, []), (1, []), (2, []), (3, [])] 10
      ⟨[], [("routes_get", 0), ("routes_post", 1), ("routes_delete", 2),
            ("routes_put", 3)], [("GET", "/p", "handle_p")]⟩
      0 1 2 3 "/p" "handle_p"
      rfl rfl rfl rfl rfl rfl rfl rfl rfl).1,
   (register_routes_shared_dict_mutation
      [(0, []), (1, []), (2, []), (3, [])] 10
      ⟨[], [("routes_get", 0), ("routes_post", 1), ("routes_delete", 2),
            ("routes_put", 3)], [("GET", "/p", "handle_p")]⟩
      0 1 2 3 "/p" "handle_p"
      rfl rfl rfl rfl rfl rfl rfl rfl rfl).2.2.2.1⟩

/-! ## Theorems about `PaginationMixin.parse_pagination` -/

/-- C6.  `parse_pagination` fails with `InvalidPageNumberError` when the
`page` parameter is present but not a positive integer; fails with
`InvalidPerPageError` when (the page validation having passed)
`per_page` is present but not a positive integer; and silently clamps a
positive `per_page` exceeding `max_per_page` down to `max_per_page`
instead of rejecting it. -/
theorem parse_pagination_validation :
    (∀ (qps : List (String × String)) (dp dpp : Int) (mx : Option Int)
        (pageStr : String),
      lookupKey qps "page" = some pageStr →
      (pyInt? pageStr = none ∨ ∃ k, pyInt? pageStr = some k ∧ k ≤ 0) →
      parsePagination qps dp dpp mx =
        Except.error (PaginationError.invalidPageNumber pageStr)) ∧
    (∀ (qps : List (String × String)) (dp dpp : Int) (mx : Option Int)
        (ppStr : String) (pg : Int),
      pyInt? ((lookupKey qps "page").getD (toString dp)) = some pg →
      0 < pg →
      lookupKey qps "per_page" = some ppStr →
      (pyInt? ppStr = none ∨ ∃ k, pyInt? ppStr = some k ∧ k ≤ 0) →
      parsePagination qps dp dpp mx =
        Except.error (PaginationError.invalidPerPage ppStr)) ∧
    (∀ (qps : List (String × String)) (dp dpp m : Int) (ppStr : String)
        (pg v : Int),
      pyInt? ((lookupKey qps "page").getD (toString dp)) = some pg →
      0 < pg →
      lookupKey qps "per_page" = some ppStr →
      pyInt? ppStr = some v → 0 < v → m < v →
      parsePagination qps dp dpp (some m) = Except.ok ⟨pg, m⟩) := by
  refine ⟨?_, ?_, ?_⟩
  · intro qps dp dpp mx pageStr hlook hbad
    rcases hbad with hb | ⟨k, hk, hk0⟩
    · simp [parsePagination, hlook, hb]
    · simp [parsePagination, hlook, hk, hk0]
  · intro qps dp dpp mx ppStr pg hpg hpos hlook hbad
    have hnp : ¬ pg ≤ 0 := by omega
    rcases hbad with hb | ⟨k, hk, hk0⟩
    · simp [parsePagination, hpg, hnp, hlook, hb]
    · simp [parsePagination, hpg, hnp, hlook, hk, hk0]
  · intro qps dp dpp m ppStr pg v hpg hpos hlook hv hvpos hmv
    have hnp : ¬ pg ≤ 0 := by omega
    have hnv : ¬ v ≤ 0 := by omega
    simp [parsePagination, hpg, hnp, hlook, hv, hnv, hmv]

/-- C6 witness: `page = "0"` is rejected, a malformed `per_page` is
rejected, and `per_page = "1000"` with maximum `20` is clamped to
`20`. -/
theorem parse_pagination_validation_witness :
    parsePagination [("page", "0")] 1 10 none =
      Except.error (PaginationError.invalidPageNumber "0") ∧
    parsePagination [("per_page", "abc")] 1 10 none =
      Except.error (PaginationError.invalidPerPage "abc") ∧
    parsePagination [("per_page", "1000")] 1 10 (some 20) =
      Except.ok ⟨1, 20⟩ :=
  ⟨parse_pagination_validation.1 [("page", "0")] 1 10 none "0" rfl
     (Or.inr ⟨0, rfl, by decide⟩),
   parse_pagination_validation.2.1 [("per_page", "abc")] 1 10 none "abc" 1
     rfl (by decide) rfl (Or.inl rfl),
   parse_pagination_validation.2.2 [("per_page", "1000")] 1 10 20 "1000" 1
     1000 rfl (by decide) rfl rfl (by decide) (by decide)⟩

/-- C1 witness. -/
theorem register_preserves_cached_singleton_witness :
    (lookupKey (((DIContainer.empty.register "n" 0 true none).get "n").2.singletons)
        "n" = some 0) ∧
    ((((DIContainer.empty.register "n" 0 true none).get "n").2.register
        "n" 1 true none).get "n" =
      (Except.ok 0,
       ((DIContainer.empty.register "n" 0 true none).get "n").2.register
         "n" 1 true none)) :=
  ⟨by decide,
   (register_preserves_cached_singleton
      ((DIContainer.empty.register "n" 0 true none).get "n").2
      "n" 0 1 (by decide)).1⟩

end UploadServer
